import Mathlib

/-!
# nettest: reachability-policy test engine

A shallow embedding of `nettest.go` (`Run`, `doTest`) and the properties of its
collection loop.

Modelling conventions.

* A Go `error` is represented by the text its `Error()` method returns; a
  nilable error is an `Option`.
* `net.DialTimeout` is an opaque primitive: its outcome for one probe is the
  argument `dialErr` of `doTest` (`none` when the connection was established).
  The `timeout` argument of `Run` only reaches that primitive.
* The goroutines race, so the order in which `Run` receives from `resultCh`
  (and whether `ctx.Done()` is taken) is an input of the model: a list of
  `Event`s, consumed one per iteration of the `select` loop.
* `numTasks` is a Go `int`; it is an `Int` here.
-/

namespace Nettest

/-- Text of a Go error value, as returned by its `Error()` method. -/
abbrev error := String

/-- Go: `type Type string`. -/
abbrev TaskType := String

/-- Go: `const Allow Type = "allow"`. -/
def Allow : TaskType := "allow"

/-- Go: `const Deny Type = "deny"`. -/
def Deny : TaskType := "deny"

/-- Go: `type task struct { Type Type; Addr string; Err error }`; the field
`Type` is spelled `Typ` since `Type` is reserved. -/
structure task where
  Typ : TaskType
  Addr : String
  Err : Option error
deriving DecidableEq, Repr

/-- The two errors `ctx.Err()` may return once `ctx.Done()` is closed
(package `context`): `context.Canceled` and `context.DeadlineExceeded`. -/
inductive CtxErr where
  | Canceled
  | DeadlineExceeded
deriving DecidableEq, Repr

/-- Text of `context.Canceled` and of `context.DeadlineExceeded`. -/
def CtxErr.Error : CtxErr → error
  | .Canceled => "context canceled"
  | .DeadlineExceeded => "context deadline exceeded"

/-- Search for `sub` at every position of `s` (character lists). -/
def containsAt (sub : List Char) : List Char → Bool
  | [] => sub.isPrefixOf []
  | c :: cs => sub.isPrefixOf (c :: cs) || containsAt sub cs

/-- Go: `strings.Contains(s, substr)`, a case-sensitive substring test. -/
def Contains (s substr : String) : Bool :=
  containsAt substr.toList s.toList

/-- The four local slices of `Run`. -/
structure Buckets where
  allowSuccess : List String
  allowFailed : List String
  denySuccess : List String
  denyFailed : List String
deriving DecidableEq, Repr

/-- The four `make([]string, 0)` slices before the loop. -/
def Buckets.empty : Buckets := ⟨[], [], [], []⟩

/-- Tasks created by the two `for ... range` loops of `Run`, in spawn order:
one `Allow` task per address of `allow`, then one `Deny` task per address of
`deny`, each with `Err` unset. -/
def schedule (allow deny : List String) : List task :=
  allow.map (fun addr => { Typ := Allow, Addr := addr, Err := none }) ++
  deny.map (fun addr => { Typ := Deny, Addr := addr, Err := none })

/-- Go: `doTest`. `dialErr` is the error returned by `net.DialTimeout`
(`none` on success); `takeDone` tells which branch of the final `select` runs.
The result is the task sent on `resultCh`, or `none` when the `ctx.Done()`
branch is taken and nothing is sent. -/
def doTest (dialErr : Option error) (takeDone : Bool) (t : task) : Option task :=
  let t := { t with Err := dialErr }
  if takeDone then none else some t

/-- The body of `case t := <-resultCh` up to `numTasks--`: the `switch t.Typ`
that appends one formatted message to one of the slices. -/
def classify (b : Buckets) (t : task) : Buckets :=
  if t.Typ = Allow then
    match t.Err with
    | some e => { b with allowFailed := b.allowFailed ++ ["Allow " ++ t.Addr ++ ": " ++ e] }
    | none => { b with allowSuccess := b.allowSuccess ++ ["Allow " ++ t.Addr ++ " OK"] }
  else if t.Typ = Deny then
    match t.Err with
    | some e =>
      if Contains e "connection refused" then
        { b with denySuccess := b.denySuccess ++ ["Deny " ++ t.Addr ++ ": OK"] }
      else if Contains e "i/o timeout" then
        { b with denySuccess := b.denySuccess ++ ["Deny " ++ t.Addr ++ ": OK"] }
      else
        { b with denyFailed := b.denyFailed ++ ["Deny " ++ t.Addr ++ " " ++ e] }
    | none =>
      { b with denyFailed := b.denyFailed ++ ["Deny " ++ t.Addr ++ " unexpected success connection"] }
  else b

/-- What the `select` of the collection loop observes in one iteration. -/
inductive Event where
  | result (t : task)
  | done (err : CtxErr)
deriving DecidableEq, Repr

/-- How the collection loop ends on a given event list. -/
inductive LoopEnd where
  | finished (b : Buckets)
  | cancelled (err : CtxErr)
  | blocked
deriving DecidableEq, Repr

/-- The `LOOP:` of `Run`. Each event is one iteration of the `select`; with no
event left the loop is still waiting. -/
def loop (numTasks : Int) (b : Buckets) : List Event → LoopEnd
  | [] => .blocked
  | .result t :: es =>
    let b := classify b t
    let numTasks := numTasks - 1
    if numTasks = 0 then .finished b else loop numTasks b es
  | .done err :: _ => .cancelled err

/-- Go: `map[string][]string`, as its key/value pairs. -/
abbrev ResultMap := List (String × List String)

/-- Go: `Run`. The outer `Option` is `none` while the loop is still waiting
for an event; otherwise the pair is the returned `(map, error)`, each `none`
when `nil`. -/
def Run (allow deny : List String) (events : List Event) :
    Option (Option ResultMap × Option error) :=
  let numTasks : Int := (allow.length : Int) + (deny.length : Int)
  if numTasks = 0 then
    some (none, some "no test conditions")
  else
    match loop numTasks Buckets.empty events with
    | .blocked => none
    | .cancelled err => some (none, some err.Error)
    | .finished b =>
      let result : ResultMap :=
        [("allowSuccess", b.allowSuccess),
         ("denySuccess", b.denySuccess),
         ("allowFailed", b.allowFailed),
         ("denyFailed", b.denyFailed)]
      let err : Option error :=
        if b.allowFailed.length > 0 ∨ b.denyFailed.length > 0 then
          some "has failed test conditions"
        else none
      some (some result, err)

/-- Tasks that reach `resultCh` when the i-th spawned goroutine dials with
outcome `outs[i].1` and takes the `ctx.Done()` branch iff `outs[i].2`. -/
def delivered (allow deny : List String) (outs : List (Option error × Bool)) : List task :=
  (List.zipWith (fun o t => doTest o.1 o.2 t) outs (schedule allow deny)).filterMap id

/-- Names of the four slices of `Run`. -/
inductive Bucket where
  | allowSuccess
  | allowFailed
  | denySuccess
  | denyFailed
deriving DecidableEq, Repr

/-- Key under which a slice is stored in the map returned by `Run`. -/
def Bucket.key : Bucket → String
  | .allowSuccess => "allowSuccess"
  | .allowFailed => "allowFailed"
  | .denySuccess => "denySuccess"
  | .denyFailed => "denyFailed"

/-- The slice with a given name. -/
def Buckets.get (b : Buckets) : Bucket → List String
  | .allowSuccess => b.allowSuccess
  | .allowFailed => b.allowFailed
  | .denySuccess => b.denySuccess
  | .denyFailed => b.denyFailed

/-- Number of messages held by the four slices together. -/
def Buckets.total (b : Buckets) : Nat :=
  b.allowSuccess.length + b.allowFailed.length + b.denySuccess.length + b.denyFailed.length

/-- The slices after receiving `results` in this order, starting from empty
slices. -/
def collect (results : List task) : Buckets :=
  results.foldl classify Buckets.empty

/-- What one received task appends to the slice `k`: at most one message. -/
def contribution (k : Bucket) (t : task) : Option String :=
  ((classify Buckets.empty t).get k).head?

/-- The text `s` contains `sub` somewhere: `s` is `pre ++ sub ++ post`. -/
def HasSubstring (s sub : String) : Prop :=
  ∃ pre post : String, s = pre ++ sub ++ post

/-- The map literal built by `Run` from the final slices. -/
def resultMap (b : Buckets) : ResultMap :=
  [("allowSuccess", b.allowSuccess),
   ("denySuccess", b.denySuccess),
   ("allowFailed", b.allowFailed),
   ("denyFailed", b.denyFailed)]

/-- The error computed by `Run` from the final slices. -/
def verdict (b : Buckets) : Option error :=
  if b.allowFailed.length > 0 ∨ b.denyFailed.length > 0 then
    some "has failed test conditions"
  else none

/-! ## Substring test -/

theorem containsAt_iff (sub l : List Char) : containsAt sub l = true ↔ sub <:+: l := by
  induction l with
  | nil =>
    simp [containsAt, List.isPrefixOf_iff_prefix]
  | cons c cs ih =>
    simp only [containsAt, Bool.or_eq_true, ih, List.isPrefixOf_iff_prefix]
    exact List.infix_cons_iff.symm

theorem Contains_iff (s sub : String) :
    Contains s sub = true ↔ HasSubstring s sub := by
  unfold Contains HasSubstring
  rw [containsAt_iff]
  constructor
  · rintro ⟨p, q, h⟩
    refine ⟨⟨p⟩, ⟨q⟩, ?_⟩
    apply String.ext
    have h2 : s.data = p ++ sub.data ++ q := h.symm
    simp [String.data_append, h2]
  · rintro ⟨pre, post, h⟩
    refine ⟨pre.data, post.data, ?_⟩
    show pre.data ++ sub.data ++ post.data = s.data
    simp [h, String.data_append]

/-! ## One received task -/

theorem classify_get (b : Buckets) (t : task) (k : Bucket) :
    (classify b t).get k = b.get k ++ (classify Buckets.empty t).get k := by
  unfold classify
  split_ifs <;> cases t.Err <;> cases k <;> simp [Buckets.get, Buckets.empty] <;>
    split_ifs <;> simp

theorem classify_empty_length_le (t : task) (k : Bucket) :
    ((classify Buckets.empty t).get k).length ≤ 1 := by
  unfold classify
  split_ifs <;> cases t.Err <;> cases k <;> simp [Buckets.get, Buckets.empty] <;>
    split_ifs <;> simp

theorem classify_get_eq (b : Buckets) (t : task) (k : Bucket) :
    (classify b t).get k = b.get k ++ (contribution k t).toList := by
  rw [classify_get, contribution]
  have h := classify_empty_length_le t k
  cases hl : (classify Buckets.empty t).get k with
  | nil => simp
  | cons m ms =>
    rw [hl] at h
    cases ms with
    | nil => simp
    | cons m2 ms2 => simp at h

theorem foldl_classify_get (results : List task) (b : Buckets) (k : Bucket) :
    (results.foldl classify b).get k = b.get k ++ results.filterMap (contribution k) := by
  induction results generalizing b with
  | nil => simp
  | cons t ts ih =>
    rw [List.foldl_cons, ih, classify_get_eq, List.filterMap_cons]
    cases contribution k t <;> simp

theorem collect_get (results : List task) (k : Bucket) :
    (collect results).get k = results.filterMap (contribution k) := by
  unfold collect
  rw [foldl_classify_get]
  cases k <;> rfl

/-! ## The collection loop -/

theorem loop_collects (results : List task) (rest : List Event) (n : Int) (b : Buckets)
    (hne : results ≠ []) (hn : n = results.length) :
    loop n b (results.map Event.result ++ rest) = .finished (results.foldl classify b) := by
  induction results generalizing n b with
  | nil => exact absurd rfl hne
  | cons t ts ih =>
    simp only [List.map_cons, List.cons_append, loop, List.foldl_cons]
    cases ts with
    | nil => simp [hn]
    | cons t2 ts2 =>
      have h1 : n - 1 ≠ 0 := by
        simp only [List.length_cons] at hn
        push_cast at hn
        omega
      rw [if_neg h1]
      apply ih
      · simp
      · simp only [List.length_cons] at hn ⊢
        push_cast at hn ⊢
        omega

theorem loop_cancelled (results : List task) (rest : List Event) (err : CtxErr) (n : Int)
    (b : Buckets) (hn : (results.length : Int) < n) :
    loop n b (results.map Event.result ++ Event.done err :: rest) = .cancelled err := by
  induction results generalizing n b with
  | nil => simp [loop]
  | cons t ts ih =>
    simp only [List.map_cons, List.cons_append, loop]
    simp only [List.length_cons] at hn
    push_cast at hn
    have h1 : n - 1 ≠ 0 := by omega
    rw [if_neg h1]
    apply ih
    omega

theorem loop_blocked (results : List task) (n : Int) (b : Buckets)
    (hn : (results.length : Int) < n) :
    loop n b (results.map Event.result) = .blocked := by
  induction results generalizing n b with
  | nil => simp [loop]
  | cons t ts ih =>
    simp only [List.map_cons, loop]
    simp only [List.length_cons] at hn
    push_cast at hn
    have h1 : n - 1 ≠ 0 := by omega
    rw [if_neg h1]
    apply ih
    omega

/-- The map literal and the verdict built by `Run` after the loop. -/
theorem Run_normal (allow deny : List String) (results : List task) (rest : List Event)
    (hpos : 0 < results.length) (hlen : results.length = allow.length + deny.length) :
    Run allow deny (results.map Event.result ++ rest) =
      some (some [("allowSuccess", (collect results).allowSuccess),
                  ("denySuccess", (collect results).denySuccess),
                  ("allowFailed", (collect results).allowFailed),
                  ("denyFailed", (collect results).denyFailed)],
            if (collect results).allowFailed.length > 0 ∨ (collect results).denyFailed.length > 0
            then some "has failed test conditions" else none) := by
  have hne : results ≠ [] := by
    intro h
    simp [h] at hpos
  have hn : ((allow.length : Int) + (deny.length : Int)) = results.length := by
    rw [hlen]
    push_cast
    rfl
  have h0 : ¬ ((allow.length : Int) + (deny.length : Int) = 0) := by
    rw [hn]
    omega
  unfold Run
  simp only [if_neg h0]
  rw [loop_collects results rest _ Buckets.empty hne hn]
  rfl

theorem Run_cancelled (allow deny : List String) (results : List task) (rest : List Event)
    (err : CtxErr) (hlen : results.length < allow.length + deny.length) :
    Run allow deny (results.map Event.result ++ Event.done err :: rest) =
      some (none, some err.Error) := by
  have h0 : ¬ ((allow.length : Int) + (deny.length : Int) = 0) := by omega
  unfold Run
  simp only [if_neg h0]
  rw [loop_cancelled results rest err _ Buckets.empty (by omega)]

theorem Run_blocked (allow deny : List String) (results : List task)
    (hlen : results.length < allow.length + deny.length) :
    Run allow deny (results.map Event.result) = none := by
  have h0 : ¬ ((allow.length : Int) + (deny.length : Int) = 0) := by omega
  unfold Run
  simp only [if_neg h0]
  rw [loop_blocked results _ Buckets.empty (by omega)]

theorem Run_normal_eq (allow deny : List String) (results : List task) (rest : List Event)
    (hpos : 0 < results.length) (hlen : results.length = allow.length + deny.length) :
    Run allow deny (results.map Event.result ++ rest) =
      some (some (resultMap (collect results)), verdict (collect results)) :=
  Run_normal allow deny results rest hpos hlen

theorem resultMap_lookup (b : Buckets) (k : Bucket) :
    (resultMap b).lookup k.key = some (b.get k) := by
  cases k <;> simp [resultMap, List.lookup, Bucket.key, Buckets.get]

theorem verdict_eq_none_iff (b : Buckets) :
    verdict b = none ↔ b.allowFailed = [] ∧ b.denyFailed = [] := by
  unfold verdict
  split_ifs with h
  · simp only [false_iff, reduceCtorEq]
    rintro ⟨h1, h2⟩
    simp [h1, h2] at h
  · simp only [true_iff]
    simp only [gt_iff_lt, List.length_pos, not_or, ne_eq, not_not] at h
    exact h

theorem verdict_of_failed (b : Buckets) (h : ¬ (b.allowFailed = [] ∧ b.denyFailed = [])) :
    verdict b = some "has failed test conditions" := by
  unfold verdict
  split_ifs with h1
  · rfl
  · simp only [gt_iff_lt, List.length_pos, not_or, ne_eq, not_not] at h1
    exact absurd h1 h

/-! ## Scheduled tasks -/

theorem Deny_ne_Allow : Deny ≠ Allow := by decide

theorem schedule_typ (allow deny : List String) (t : task) (h : t ∈ schedule allow deny) :
    t.Typ = Allow ∨ t.Typ = Deny := by
  unfold schedule at h
  rcases List.mem_append.1 h with h | h
  · obtain ⟨a, _, rfl⟩ := List.mem_map.1 h
    exact Or.inl rfl
  · obtain ⟨a, _, rfl⟩ := List.mem_map.1 h
    exact Or.inr rfl

theorem doTest_typ (o : Option error) (c : Bool) (s t : task) (h : doTest o c s = some t) :
    t.Typ = s.Typ := by
  unfold doTest at h
  cases c
  · simp at h
    rw [← h]
  · simp at h

theorem mem_zipWith_right {α β γ : Type} (f : α → β → γ) (l1 : List α) (l2 : List β) (r : γ)
    (h : r ∈ List.zipWith f l1 l2) : ∃ a b, b ∈ l2 ∧ r = f a b := by
  induction l1 generalizing l2 with
  | nil => simp at h
  | cons x xs ih =>
    cases l2 with
    | nil => simp at h
    | cons y ys =>
      rw [List.zipWith_cons_cons, List.mem_cons] at h
      rcases h with h | h
      · exact ⟨x, y, List.mem_cons_self _ _, h⟩
      · obtain ⟨a, b, hb, hr⟩ := ih ys h
        exact ⟨a, b, List.mem_cons_of_mem _ hb, hr⟩

theorem delivered_typ (allow deny : List String) (outs : List (Option error × Bool)) (t : task)
    (h : t ∈ delivered allow deny outs) : t.Typ = Allow ∨ t.Typ = Deny := by
  unfold delivered at h
  rw [List.mem_filterMap] at h
  obtain ⟨r, hr, hrt⟩ := h
  simp only [id] at hrt
  subst hrt
  obtain ⟨o, s, hs, hos⟩ := mem_zipWith_right _ _ _ _ hr
  rw [doTest_typ _ _ _ _ hos.symm]
  exact schedule_typ allow deny s hs

theorem classify_one_bucket (b : Buckets) (t : task) (h : t.Typ = Allow ∨ t.Typ = Deny) :
    ∃ (k : Bucket) (msg : String), (classify b t).get k = b.get k ++ [msg] ∧
      ∀ k2 : Bucket, k2 ≠ k → (classify b t).get k2 = b.get k2 := by
  rcases t with ⟨ty, a, e⟩
  simp only at h
  rcases h with h | h
  · subst h
    cases e with
    | none =>
      exact ⟨.allowSuccess, "Allow " ++ a ++ " OK", by simp [classify, Buckets.get],
        fun k2 hk => by cases k2 <;> simp_all [classify, Buckets.get]⟩
    | some d =>
      exact ⟨.allowFailed, "Allow " ++ a ++ ": " ++ d, by simp [classify, Buckets.get],
        fun k2 hk => by cases k2 <;> simp_all [classify, Buckets.get]⟩
  · subst h
    cases e with
    | none =>
      exact ⟨.denyFailed, "Deny " ++ a ++ " unexpected success connection",
        by simp [classify, Buckets.get, Deny_ne_Allow],
        fun k2 hk => by cases k2 <;> simp_all [classify, Buckets.get, Deny_ne_Allow]⟩
    | some d =>
      by_cases h1 : Contains d "connection refused" = true
      · exact ⟨.denySuccess, "Deny " ++ a ++ ": OK",
          by simp [classify, Buckets.get, Deny_ne_Allow, h1],
          fun k2 hk => by cases k2 <;> simp_all [classify, Buckets.get, Deny_ne_Allow]⟩
      · by_cases h2 : Contains d "i/o timeout" = true
        · exact ⟨.denySuccess, "Deny " ++ a ++ ": OK",
            by simp [classify, Buckets.get, Deny_ne_Allow, h1, h2],
            fun k2 hk => by cases k2 <;> simp_all [classify, Buckets.get, Deny_ne_Allow]⟩
        · exact ⟨.denyFailed, "Deny " ++ a ++ " " ++ d,
            by simp [classify, Buckets.get, Deny_ne_Allow, h1, h2],
            fun k2 hk => by cases k2 <;> simp_all [classify, Buckets.get, Deny_ne_Allow]⟩

theorem classify_total (b : Buckets) (t : task) (h : t.Typ = Allow ∨ t.Typ = Deny) :
    (classify b t).total = b.total + 1 := by
  obtain ⟨k, msg, hk, hrest⟩ := classify_one_bucket b t h
  have e1 := hrest .allowSuccess
  have e2 := hrest .allowFailed
  have e3 := hrest .denySuccess
  have e4 := hrest .denyFailed
  cases k <;> simp [Buckets.get] at hk e1 e2 e3 e4 <;> simp [Buckets.total, *] <;> omega

theorem foldl_classify_total (results : List task) (b : Buckets)
    (h : ∀ t ∈ results, t.Typ = Allow ∨ t.Typ = Deny) :
    (results.foldl classify b).total = b.total + results.length := by
  induction results generalizing b with
  | nil => simp
  | cons t ts ih =>
    rw [List.foldl_cons, ih _ (fun u hu => h u (List.mem_cons_of_mem _ hu)),
      classify_total b t (h t (List.mem_cons_self _ _)), List.length_cons]
    omega

theorem collect_total (results : List task)
    (h : ∀ t ∈ results, t.Typ = Allow ∨ t.Typ = Deny) :
    (collect results).total = results.length := by
  unfold collect
  rw [foldl_classify_total results _ h]
  simp [Buckets.total, Buckets.empty]

theorem classify_deny_connected (a : String) (b : Buckets) :
    classify b (task.mk Deny a none) =
      { b with denyFailed :=
          b.denyFailed ++ ["Deny " ++ a ++ " unexpected success connection"] } := by
  simp [classify, Deny_ne_Allow]

theorem classify_deny_other (a : String) (d : error) (b : Buckets)
    (h1 : ¬ HasSubstring d "connection refused") (h2 : ¬ HasSubstring d "i/o timeout") :
    classify b (task.mk Deny a (some d)) =
      { b with denyFailed := b.denyFailed ++ ["Deny " ++ a ++ " " ++ d] } := by
  rw [← Contains_iff] at h1 h2
  simp [classify, Deny_ne_Allow, h1, h2]

theorem collect_failed_of_mem (results : List task) (t : task) (msg : String)
    (ht : t ∈ results) (hc : contribution .denyFailed t = some msg) :
    msg ∈ (collect results).denyFailed := by
  have h := collect_get results .denyFailed
  simp only [Buckets.get] at h
  rw [h, List.mem_filterMap]
  exact ⟨t, ht, hc⟩

theorem Run_congr_length (allow deny allow2 deny2 : List String) (events : List Event)
    (h : allow2.length + deny2.length = allow.length + deny.length) :
    Run allow2 deny2 events = Run allow deny events := by
  have hi : (allow2.length : Int) + (deny2.length : Int) =
      (allow.length : Int) + (deny.length : Int) := by omega
  unfold Run
  simp only [hi]

theorem verdict_congr (b1 b2 : Buckets) (h1 : b1.allowFailed.Perm b2.allowFailed)
    (h2 : b1.denyFailed.Perm b2.denyFailed) : verdict b1 = verdict b2 := by
  unfold verdict
  rw [h1.length_eq, h2.length_eq]

theorem loop_finished_inv (events : List Event) (n : Int) (b b2 : Buckets) (hn : 0 < n)
    (h : loop n b events = .finished b2) :
    ∃ (results : List task) (rest : List Event),
      events = results.map Event.result ++ rest ∧ (results.length : Int) = n ∧
      b2 = results.foldl classify b := by
  induction events generalizing n b with
  | nil => simp [loop] at h
  | cons ev es ih =>
    cases ev with
    | done err => simp [loop] at h
    | result t =>
      simp only [loop] at h
      by_cases h0 : n - 1 = 0
      · rw [if_pos h0] at h
        refine ⟨[t], es, rfl, ?_, ?_⟩
        · simp only [List.length_singleton]
          push_cast
          omega
        · simp only [LoopEnd.finished.injEq] at h
          simp [h]
      · rw [if_neg h0] at h
        obtain ⟨results, rest, he, hl, hb⟩ := ih (n - 1) (classify b t) (by omega) h
        refine ⟨t :: results, rest, ?_, ?_, ?_⟩
        · simp [he]
        · simp only [List.length_cons]
          push_cast
          omega
        · simp [hb]

/-- Every run that returns a map has received `len(allow)+len(deny)` results
before any cancellation. -/
theorem Run_map_inv (allow deny : List String) (events : List Event) (m : ResultMap)
    (e : Option error) (h : Run allow deny events = some (some m, e)) :
    ∃ (results : List task) (rest : List Event),
      events = results.map Event.result ++ rest ∧ 0 < results.length ∧
      results.length = allow.length + deny.length := by
  unfold Run at h
  by_cases h0 : (allow.length : Int) + (deny.length : Int) = 0
  · simp [h0] at h
  · simp only [if_neg h0] at h
    cases hl : loop ((allow.length : Int) + (deny.length : Int)) Buckets.empty events with
    | blocked => simp [hl] at h
    | cancelled err => simp [hl] at h
    | finished b2 =>
      obtain ⟨results, rest, he, hlen, _⟩ :=
        loop_finished_inv events _ Buckets.empty b2 (by omega) hl
      exact ⟨results, rest, he, by omega, by omega⟩

/-! ## Properties of `Run` -/

/-- C1: when `Run` completes normally (the first `len(allow)+len(deny)` events
are all results), it returns a non-nil map holding the four keys, the error is
nil exactly when `allowFailed` and `denyFailed` are both empty, and otherwise
it is the fixed error "has failed test conditions". -/
theorem Run_error_nil_iff_no_failed (allow deny : List String) (results : List task)
    (rest : List Event) (hpos : 0 < results.length)
    (hlen : results.length = allow.length + deny.length) :
    ∃ (m : ResultMap) (e : Option error) (aS aF dS dF : List String),
      Run allow deny (results.map Event.result ++ rest) = some (some m, e) ∧
      m.lookup "allowSuccess" = some aS ∧ m.lookup "allowFailed" = some aF ∧
      m.lookup "denySuccess" = some dS ∧ m.lookup "denyFailed" = some dF ∧
      (e = none ↔ aF = [] ∧ dF = []) ∧
      (¬ (aF = [] ∧ dF = []) → e = some "has failed test conditions") := by
  refine ⟨resultMap (collect results), verdict (collect results),
    (collect results).allowSuccess, (collect results).allowFailed,
    (collect results).denySuccess, (collect results).denyFailed,
    Run_normal_eq allow deny results rest hpos hlen,
    resultMap_lookup _ .allowSuccess, resultMap_lookup _ .allowFailed,
    resultMap_lookup _ .denySuccess, resultMap_lookup _ .denyFailed,
    verdict_eq_none_iff _, verdict_of_failed _⟩

theorem Run_error_nil_iff_no_failed_witness :
    0 < [task.mk Allow "10.0.0.1:80" none, task.mk Deny "10.0.0.2:22" none].length ∧
    [task.mk Allow "10.0.0.1:80" none, task.mk Deny "10.0.0.2:22" none].length =
      ["10.0.0.1:80"].length + ["10.0.0.2:22"].length ∧
    ∃ (m : ResultMap) (e : Option error) (aS aF dS dF : List String),
      Run ["10.0.0.1:80"] ["10.0.0.2:22"]
        ([task.mk Allow "10.0.0.1:80" none, task.mk Deny "10.0.0.2:22" none].map Event.result
          ++ []) = some (some m, e) ∧
      m.lookup "allowSuccess" = some aS ∧ m.lookup "allowFailed" = some aF ∧
      m.lookup "denySuccess" = some dS ∧ m.lookup "denyFailed" = some dF ∧
      (e = none ↔ aF = [] ∧ dF = []) ∧
      (¬ (aF = [] ∧ dF = []) → e = some "has failed test conditions") :=
  ⟨by decide, by decide,
    Run_error_nil_iff_no_failed ["10.0.0.1:80"] ["10.0.0.2:22"]
      [task.mk Allow "10.0.0.1:80" none, task.mk Deny "10.0.0.2:22" none] []
      (by decide) (by decide)⟩

/-- C2: for lists that are not both empty and every arrival order of the
results sent by the spawned probes, a run that collects all
`len(allow)+len(deny)` results returns four slices holding
`len(allow)+len(deny)` messages in total, and each received task appends
exactly one message to exactly one slice. -/
theorem Run_total_messages (allow deny : List String) (outs : List (Option error × Bool))
    (arrival : List task) (rest : List Event)
    (hne : allow ≠ [] ∨ deny ≠ [])
    (harr : arrival.Perm (delivered allow deny outs))
    (hall : arrival.length = allow.length + deny.length) :
    (∃ (m : ResultMap) (e : Option error) (aS aF dS dF : List String),
      Run allow deny (arrival.map Event.result ++ rest) = some (some m, e) ∧
      m.lookup "allowSuccess" = some aS ∧ m.lookup "allowFailed" = some aF ∧
      m.lookup "denySuccess" = some dS ∧ m.lookup "denyFailed" = some dF ∧
      aS.length + aF.length + dS.length + dF.length = allow.length + deny.length) ∧
    (∀ t ∈ arrival, ∀ b : Buckets, ∃ (k : Bucket) (msg : String),
      (classify b t).get k = b.get k ++ [msg] ∧
      ∀ k2 : Bucket, k2 ≠ k → (classify b t).get k2 = b.get k2) := by
  have htyp : ∀ t ∈ arrival, t.Typ = Allow ∨ t.Typ = Deny :=
    fun t ht => delivered_typ allow deny outs t (harr.mem_iff.1 ht)
  have hpos : 0 < arrival.length := by
    rw [hall]
    rcases hne with h | h
    · have := List.length_pos.2 h
      omega
    · have := List.length_pos.2 h
      omega
  refine ⟨⟨resultMap (collect arrival), verdict (collect arrival),
    (collect arrival).allowSuccess, (collect arrival).allowFailed,
    (collect arrival).denySuccess, (collect arrival).denyFailed,
    Run_normal_eq allow deny arrival rest hpos hall,
    resultMap_lookup _ .allowSuccess, resultMap_lookup _ .allowFailed,
    resultMap_lookup _ .denySuccess, resultMap_lookup _ .denyFailed, ?_⟩, ?_⟩
  · have h := collect_total arrival htyp
    unfold Buckets.total at h
    rw [h, hall]
  · intro t ht b
    exact classify_one_bucket b t (htyp t ht)

theorem Run_total_messages_witness :
    (["a:1", "a:1"] ≠ [] ∨ ["b:2"] ≠ []) ∧
    [task.mk Deny "b:2" (some "i/o timeout"), task.mk Allow "a:1" none,
      task.mk Allow "a:1" (some "no route to host")].Perm
      (delivered ["a:1", "a:1"] ["b:2"]
        [(none, false), (some "no route to host", false), (some "i/o timeout", false)]) ∧
    [task.mk Deny "b:2" (some "i/o timeout"), task.mk Allow "a:1" none,
      task.mk Allow "a:1" (some "no route to host")].length =
      ["a:1", "a:1"].length + ["b:2"].length ∧
    ((∃ (m : ResultMap) (e : Option error) (aS aF dS dF : List String),
      Run ["a:1", "a:1"] ["b:2"]
        ([task.mk Deny "b:2" (some "i/o timeout"), task.mk Allow "a:1" none,
          task.mk Allow "a:1" (some "no route to host")].map Event.result ++ []) =
        some (some m, e) ∧
      m.lookup "allowSuccess" = some aS ∧ m.lookup "allowFailed" = some aF ∧
      m.lookup "denySuccess" = some dS ∧ m.lookup "denyFailed" = some dF ∧
      aS.length + aF.length + dS.length + dF.length =
        ["a:1", "a:1"].length + ["b:2"].length) ∧
    (∀ t ∈ [task.mk Deny "b:2" (some "i/o timeout"), task.mk Allow "a:1" none,
        task.mk Allow "a:1" (some "no route to host")],
      ∀ b : Buckets, ∃ (k : Bucket) (msg : String),
      (classify b t).get k = b.get k ++ [msg] ∧
      ∀ k2 : Bucket, k2 ≠ k → (classify b t).get k2 = b.get k2)) :=
  ⟨by decide, by decide, by decide,
    Run_total_messages ["a:1", "a:1"] ["b:2"]
      [(none, false), (some "no route to host", false), (some "i/o timeout", false)]
      [task.mk Deny "b:2" (some "i/o timeout"), task.mk Allow "a:1" none,
        task.mk Allow "a:1" (some "no route to host")] []
      (by decide) (by decide) (by decide)⟩

/-- C3: for an address `a` of the allow list, the spawned task is tagged
`Allow`; when the dial succeeds the received task appends "Allow a OK" to
`allowSuccess` and leaves the other three slices unchanged; when it fails with
descriptor `d` (any text) it appends "Allow a: d" to `allowFailed` and leaves
the other three slices unchanged. -/
theorem classify_allow (allow deny : List String) (a : String) (b : Buckets)
    (ha : a ∈ allow) :
    task.mk Allow a none ∈ schedule allow deny ∧
    (∃ t, doTest none false (task.mk Allow a none) = some t ∧
      classify b t =
        { b with allowSuccess := b.allowSuccess ++ ["Allow " ++ a ++ " OK"] }) ∧
    (∀ d : error, ∃ t, doTest (some d) false (task.mk Allow a none) = some t ∧
      classify b t =
        { b with allowFailed := b.allowFailed ++ ["Allow " ++ a ++ ": " ++ d] }) := by
  refine ⟨?_, ⟨_, rfl, ?_⟩, fun d => ⟨_, rfl, ?_⟩⟩
  · unfold schedule
    exact List.mem_append_left _ (List.mem_map.2 ⟨a, ha, rfl⟩)
  · simp [classify]
  · simp [classify]

theorem classify_allow_witness :
    "10.0.0.1:80" ∈ ["10.0.0.1:80"] ∧
    (task.mk Allow "10.0.0.1:80" none ∈ schedule ["10.0.0.1:80"] [] ∧
    (∃ t, doTest none false (task.mk Allow "10.0.0.1:80" none) = some t ∧
      classify Buckets.empty t =
        { Buckets.empty with
          allowSuccess := Buckets.empty.allowSuccess ++ ["Allow " ++ "10.0.0.1:80" ++ " OK"] }) ∧
    (∀ d : error, ∃ t, doTest (some d) false (task.mk Allow "10.0.0.1:80" none) = some t ∧
      classify Buckets.empty t =
        { Buckets.empty with
          allowFailed :=
            Buckets.empty.allowFailed ++ ["Allow " ++ "10.0.0.1:80" ++ ": " ++ d] })) :=
  ⟨by decide, classify_allow ["10.0.0.1:80"] [] "10.0.0.1:80" Buckets.empty (by decide)⟩

/-- C4: for an address `a` of the deny list whose dial fails with a descriptor
containing "connection refused" or "i/o timeout", the received task appends
exactly "Deny a: OK" to `denySuccess` and leaves the other slices, `denyFailed`
included, unchanged; a run with this single probe returns
`denySuccess = ["Deny a: OK"]` and a nil error. -/
theorem classify_deny_refused_or_timeout (allow deny : List String) (a : String) (d : error)
    (b : Buckets) (ha : a ∈ deny)
    (hd : HasSubstring d "connection refused" ∨ HasSubstring d "i/o timeout") :
    task.mk Deny a none ∈ schedule allow deny ∧
    (∃ t, doTest (some d) false (task.mk Deny a none) = some t ∧
      classify b t = { b with denySuccess := b.denySuccess ++ ["Deny " ++ a ++ ": OK"] } ∧
      ∀ rest : List Event, Run [] [a] (Event.result t :: rest) =
        some (some [("allowSuccess", []), ("denySuccess", ["Deny " ++ a ++ ": OK"]),
                    ("allowFailed", []), ("denyFailed", [])], none)) := by
  have hc : ∀ b0 : Buckets, classify b0 (task.mk Deny a (some d)) =
      { b0 with denySuccess := b0.denySuccess ++ ["Deny " ++ a ++ ": OK"] } := by
    intro b0
    by_cases h1 : Contains d "connection refused" = true
    · simp [classify, Deny_ne_Allow, h1]
    · have h2 : Contains d "i/o timeout" = true := by
        rcases hd with h | h
        · exact absurd ((Contains_iff _ _).2 h) h1
        · exact (Contains_iff _ _).2 h
      simp [classify, Deny_ne_Allow, h1, h2]
  refine ⟨?_, _, rfl, hc b, fun rest => ?_⟩
  · unfold schedule
    exact List.mem_append_right _ (List.mem_map.2 ⟨a, ha, rfl⟩)
  · have h := Run_normal [] [a] [task.mk Deny a (some d)] rest (by simp) (by simp)
    have hcol : collect [task.mk Deny a (some d)] =
        classify Buckets.empty (task.mk Deny a (some d)) := rfl
    rw [hcol, hc] at h
    simp only [List.map_cons, List.map_nil, List.cons_append, List.nil_append] at h
    rw [h]
    simp [Buckets.empty]

theorem classify_deny_refused_or_timeout_witness :
    "127.0.0.1:9999" ∈ ["127.0.0.1:9999"] ∧
    (HasSubstring "connection refused" "connection refused" ∨
      HasSubstring "connection refused" "i/o timeout") ∧
    (task.mk Deny "127.0.0.1:9999" none ∈ schedule [] ["127.0.0.1:9999"] ∧
    (∃ t, doTest (some "connection refused") false (task.mk Deny "127.0.0.1:9999" none) = some t ∧
      classify Buckets.empty t =
        { Buckets.empty with
          denySuccess := Buckets.empty.denySuccess ++ ["Deny " ++ "127.0.0.1:9999" ++ ": OK"] } ∧
      ∀ rest : List Event, Run [] ["127.0.0.1:9999"] (Event.result t :: rest) =
        some (some [("allowSuccess", []),
                    ("denySuccess", ["Deny " ++ "127.0.0.1:9999" ++ ": OK"]),
                    ("allowFailed", []), ("denyFailed", [])], none))) :=
  ⟨by decide, Or.inl ⟨"", "", by decide⟩,
    classify_deny_refused_or_timeout [] ["127.0.0.1:9999"] "127.0.0.1:9999"
      "connection refused" Buckets.empty (by decide) (Or.inl ⟨"", "", by decide⟩)⟩

/-- C5: for an address `a` of the deny list, when the dial succeeds the
received task appends "Deny a unexpected success connection" to `denyFailed`;
when it fails with a descriptor `d` containing neither "connection refused"
nor "i/o timeout" it appends "Deny a d" to `denyFailed`; in both cases the
other slices, `denySuccess` included, are unchanged, and every run that
completes normally after receiving this task returns the error
"has failed test conditions" with the message in `denyFailed`. -/
theorem classify_deny_failed (allow deny : List String) (a : String) (o : Option error)
    (ha : a ∈ deny)
    (ho : ∀ d, o = some d →
      ¬ HasSubstring d "connection refused" ∧ ¬ HasSubstring d "i/o timeout") :
    task.mk Deny a none ∈ schedule allow deny ∧
    ∃ t, doTest o false (task.mk Deny a none) = some t ∧
      (o = none → ∀ b : Buckets, classify b t =
        { b with denyFailed :=
            b.denyFailed ++ ["Deny " ++ a ++ " unexpected success connection"] }) ∧
      (∀ d, o = some d → ∀ b : Buckets, classify b t =
        { b with denyFailed := b.denyFailed ++ ["Deny " ++ a ++ " " ++ d] }) ∧
      (∀ (results : List task) (rest : List Event),
        results.length = allow.length + deny.length → t ∈ results →
        ∃ (m : ResultMap) (dF : List String),
          Run allow deny (results.map Event.result ++ rest) =
            some (some m, some "has failed test conditions") ∧
          m.lookup "denyFailed" = some dF ∧
          (o = none → "Deny " ++ a ++ " unexpected success connection" ∈ dF) ∧
          (∀ d, o = some d → "Deny " ++ a ++ " " ++ d ∈ dF)) := by
  refine ⟨?_, task.mk Deny a o, rfl, ?_, ?_, ?_⟩
  · unfold schedule
    exact List.mem_append_right _ (List.mem_map.2 ⟨a, ha, rfl⟩)
  · intro h b
    subst h
    exact classify_deny_connected a b
  · intro d h b
    subst h
    exact classify_deny_other a d b (ho d rfl).1 (ho d rfl).2
  · intro results rest hlen hmem
    have hpos : 0 < results.length := List.length_pos_of_mem hmem
    have hex : ∃ msg, contribution .denyFailed (task.mk Deny a o) = some msg ∧
        (o = none → msg = "Deny " ++ a ++ " unexpected success connection") ∧
        (∀ d, o = some d → msg = "Deny " ++ a ++ " " ++ d) := by
      cases o with
      | none =>
        refine ⟨"Deny " ++ a ++ " unexpected success connection", ?_, fun _ => rfl,
          fun d h => Option.noConfusion h⟩
        unfold contribution
        rw [classify_deny_connected]
        simp [Buckets.get, Buckets.empty]
      | some d =>
        refine ⟨"Deny " ++ a ++ " " ++ d, ?_, fun h => Option.noConfusion h, fun d2 h => ?_⟩
        · unfold contribution
          rw [classify_deny_other a d _ (ho d rfl).1 (ho d rfl).2]
          simp [Buckets.get, Buckets.empty]
        · cases h
          rfl
    obtain ⟨msg, hc, hm1, hm2⟩ := hex
    have hin := collect_failed_of_mem results _ _ hmem hc
    refine ⟨resultMap (collect results), (collect results).denyFailed, ?_,
      resultMap_lookup _ .denyFailed, fun h => hm1 h ▸ hin, fun d h => hm2 d h ▸ hin⟩
    rw [Run_normal_eq allow deny results rest hpos hlen, verdict_of_failed]
    rintro ⟨_, h2⟩
    rw [h2] at hin
    simp at hin

theorem classify_deny_failed_witness :
    "10.0.0.2:22" ∈ ["10.0.0.2:22"] ∧
    (∀ d, some "no route to host" = some d →
      ¬ HasSubstring d "connection refused" ∧ ¬ HasSubstring d "i/o timeout") ∧
    (task.mk Deny "10.0.0.2:22" none ∈ schedule [] ["10.0.0.2:22"] ∧
    ∃ t, doTest (some "no route to host") false (task.mk Deny "10.0.0.2:22" none) = some t ∧
      (some "no route to host" = none → ∀ b : Buckets, classify b t =
        { b with denyFailed :=
            b.denyFailed ++ ["Deny " ++ "10.0.0.2:22" ++ " unexpected success connection"] }) ∧
      (∀ d, some "no route to host" = some d → ∀ b : Buckets, classify b t =
        { b with denyFailed := b.denyFailed ++ ["Deny " ++ "10.0.0.2:22" ++ " " ++ d] }) ∧
      (∀ (results : List task) (rest : List Event),
        results.length = ([] : List String).length + ["10.0.0.2:22"].length → t ∈ results →
        ∃ (m : ResultMap) (dF : List String),
          Run [] ["10.0.0.2:22"] (results.map Event.result ++ rest) =
            some (some m, some "has failed test conditions") ∧
          m.lookup "denyFailed" = some dF ∧
          (some "no route to host" = none →
            "Deny " ++ "10.0.0.2:22" ++ " unexpected success connection" ∈ dF) ∧
          (∀ d, some "no route to host" = some d →
            "Deny " ++ "10.0.0.2:22" ++ " " ++ d ∈ dF))) :=
  have ho : ∀ d, some "no route to host" = some d →
      ¬ HasSubstring d "connection refused" ∧ ¬ HasSubstring d "i/o timeout" := by
    intro d h
    cases h
    exact ⟨fun h => absurd ((Contains_iff _ _).2 h) (by decide),
      fun h => absurd ((Contains_iff _ _).2 h) (by decide)⟩
  ⟨by decide, ho,
    classify_deny_failed [] ["10.0.0.2:22"] "10.0.0.2:22" (some "no route to host")
      (by decide) ho⟩

/-- C6: with both lists empty `Run` returns a nil map and the error
"no test conditions", whatever the events; with lists that are not both empty
(whatever the address strings) `Run` never returns that error. -/
theorem Run_no_test_conditions (allow deny : List String) (events : List Event) :
    (allow = [] ∧ deny = [] →
      Run allow deny events = some (none, some "no test conditions")) ∧
    (allow ≠ [] ∨ deny ≠ [] →
      ∀ r : Option ResultMap, Run allow deny events ≠ some (r, some "no test conditions")) := by
  constructor
  · rintro ⟨rfl, rfl⟩
    rfl
  · intro hne r
    have h0 : ¬ ((allow.length : Int) + (deny.length : Int) = 0) := by
      rcases hne with h | h
      · have := List.length_pos.2 h
        omega
      · have := List.length_pos.2 h
        omega
    unfold Run
    simp only [if_neg h0]
    cases loop ((allow.length : Int) + (deny.length : Int)) Buckets.empty events with
    | blocked => simp
    | cancelled err =>
      cases err <;> simp [CtxErr.Error]
    | finished b =>
      simp only
      split_ifs <;> simp

theorem Run_no_test_conditions_witness :
    (([] : List String) = [] ∧ ([] : List String) = []) ∧
    Run [] [] [Event.done CtxErr.Canceled] = some (none, some "no test conditions") ∧
    (["not an address", "not an address"] ≠ [] ∨ ([] : List String) ≠ []) ∧
    ∀ r : Option ResultMap,
      Run ["not an address", "not an address"] [] [Event.done CtxErr.Canceled] ≠
        some (r, some "no test conditions") :=
  ⟨⟨rfl, rfl⟩,
    (Run_no_test_conditions [] [] [Event.done CtxErr.Canceled]).1 ⟨rfl, rfl⟩,
    Or.inl (by decide),
    (Run_no_test_conditions ["not an address", "not an address"] []
      [Event.done CtxErr.Canceled]).2 (Or.inl (by decide))⟩

/-- C7: when the `ctx.Done()` branch is taken after fewer than
`len(allow)+len(deny)` results were received, `Run` returns a nil map together
with the context's error, whatever was collected; that error is not
"has failed test conditions". -/
theorem Run_cancel_discards (allow deny : List String) (results : List task)
    (rest : List Event) (err : CtxErr)
    (hlen : results.length < allow.length + deny.length) :
    Run allow deny (results.map Event.result ++ Event.done err :: rest) =
      some (none, some err.Error) ∧
    err.Error ≠ "has failed test conditions" := by
  refine ⟨Run_cancelled allow deny results rest err hlen, ?_⟩
  cases err <;> decide

theorem Run_cancel_discards_witness :
    [task.mk Allow "10.0.0.1:80" (some "connection refused")].length <
      ["10.0.0.1:80"].length + ["10.0.0.2:22"].length ∧
    Run ["10.0.0.1:80"] ["10.0.0.2:22"]
      ([task.mk Allow "10.0.0.1:80" (some "connection refused")].map Event.result ++
        Event.done CtxErr.DeadlineExceeded :: []) =
      some (none, some CtxErr.DeadlineExceeded.Error) ∧
    CtxErr.DeadlineExceeded.Error ≠ "has failed test conditions" :=
  ⟨by decide,
    Run_cancel_discards ["10.0.0.1:80"] ["10.0.0.2:22"]
      [task.mk Allow "10.0.0.1:80" (some "connection refused")] []
      CtxErr.DeadlineExceeded (by decide)⟩

/-- C8 as written fails: a deny task whose descriptor contains "I/O timeout"
in capitals (and neither "connection refused" nor "i/o timeout") is put into
`denyFailed` with the message "Deny a d", not into `denySuccess`, and the run
returns the error "has failed test conditions". -/
theorem classify_deny_capital_timeout_counterexample :
    HasSubstring "dial tcp 10.0.0.2:22: I/O timeout" "I/O timeout" ∧
    classify Buckets.empty
        (task.mk Deny "10.0.0.2:22" (some "dial tcp 10.0.0.2:22: I/O timeout")) =
      { allowSuccess := [], allowFailed := [], denySuccess := [],
        denyFailed := ["Deny 10.0.0.2:22 dial tcp 10.0.0.2:22: I/O timeout"] } ∧
    Run [] ["10.0.0.2:22"]
        [Event.result (task.mk Deny "10.0.0.2:22" (some "dial tcp 10.0.0.2:22: I/O timeout"))] =
      some (some [("allowSuccess", []), ("denySuccess", []), ("allowFailed", []),
                  ("denyFailed", ["Deny 10.0.0.2:22 dial tcp 10.0.0.2:22: I/O timeout"])],
            some "has failed test conditions") :=
  ⟨⟨"dial tcp 10.0.0.2:22: ", "", by decide⟩, by decide, by decide⟩

/-- C8, amended: for every deny address `a` whose failure descriptor contains
the substring "i/o timeout" (lower case, compared case-sensitively), the
received task appends "Deny a: OK" to `denySuccess` and leaves `denyFailed`
and the other slices unchanged. -/
theorem classify_deny_timeout (a : String) (d : error) (b : Buckets)
    (hd : HasSubstring d "i/o timeout") :
    ∃ t, doTest (some d) false (task.mk Deny a none) = some t ∧
      classify b t = { b with denySuccess := b.denySuccess ++ ["Deny " ++ a ++ ": OK"] } ∧
      (classify b t).denyFailed = b.denyFailed := by
  have h2 : Contains d "i/o timeout" = true := (Contains_iff _ _).2 hd
  refine ⟨task.mk Deny a (some d), rfl, ?_, ?_⟩
  · by_cases h1 : Contains d "connection refused" = true
    · simp [classify, Deny_ne_Allow, h1]
    · simp [classify, Deny_ne_Allow, h1, h2]
  · by_cases h1 : Contains d "connection refused" = true
    · simp [classify, Deny_ne_Allow, h1]
    · simp [classify, Deny_ne_Allow, h1, h2]

theorem classify_deny_timeout_witness :
    HasSubstring "dial tcp 10.0.0.2:22: i/o timeout" "i/o timeout" ∧
    ∃ t, doTest (some "dial tcp 10.0.0.2:22: i/o timeout") false
        (task.mk Deny "10.0.0.2:22" none) = some t ∧
      classify Buckets.empty t =
        { Buckets.empty with
          denySuccess := Buckets.empty.denySuccess ++ ["Deny " ++ "10.0.0.2:22" ++ ": OK"] } ∧
      (classify Buckets.empty t).denyFailed = Buckets.empty.denyFailed :=
  ⟨⟨"dial tcp 10.0.0.2:22: ", "", by decide⟩,
    classify_deny_timeout "10.0.0.2:22" "dial tcp 10.0.0.2:22: i/o timeout" Buckets.empty
      ⟨"dial tcp 10.0.0.2:22: ", "", by decide⟩⟩

/-- C9: on a run that completes normally, the slice stored under each key is
the list of messages of the received results that go to that slice, in arrival
order; receiving a task only appends to a slice; so the message of an
earlier-arriving result precedes that of a later-arriving one in the same
slice; and the outcome does not depend on the order of the addresses in
`allow` and `deny`. -/
theorem Run_buckets_arrival_order (allow deny : List String) (results : List task)
    (rest : List Event) (hpos : 0 < results.length)
    (hlen : results.length = allow.length + deny.length) :
    ∃ (m : ResultMap) (e : Option error),
      Run allow deny (results.map Event.result ++ rest) = some (some m, e) ∧
      (∀ k : Bucket, m.lookup k.key = some (results.filterMap (contribution k))) ∧
      (∀ (b : Buckets) (t : task) (k : Bucket),
        (classify b t).get k = b.get k ++ (contribution k t).toList) ∧
      (∀ (k : Bucket) (pre mid post : List task) (t1 t2 : task) (m1 m2 : String),
        results = pre ++ t1 :: (mid ++ t2 :: post) →
        contribution k t1 = some m1 → contribution k t2 = some m2 →
        m.lookup k.key = some (pre.filterMap (contribution k) ++
          m1 :: (mid.filterMap (contribution k) ++ m2 :: post.filterMap (contribution k)))) ∧
      (∀ allow2 deny2 : List String, allow2.Perm allow → deny2.Perm deny →
        Run allow2 deny2 (results.map Event.result ++ rest) = some (some m, e)) := by
  have hrun := Run_normal_eq allow deny results rest hpos hlen
  have hlook : ∀ k : Bucket,
      (resultMap (collect results)).lookup k.key = some (results.filterMap (contribution k)) := by
    intro k
    rw [resultMap_lookup, collect_get]
  refine ⟨resultMap (collect results), verdict (collect results), hrun, hlook,
    classify_get_eq, ?_, ?_⟩
  · intro k pre mid post t1 t2 m1 m2 hres h1 h2
    rw [hlook k, hres]
    simp [List.filterMap_append, List.filterMap_cons, h1, h2]
  · intro allow2 deny2 ha hd
    rw [Run_congr_length allow deny allow2 deny2 _ (by rw [ha.length_eq, hd.length_eq])]
    exact hrun

theorem Run_buckets_arrival_order_witness :
    0 < [task.mk Deny "b:2" none, task.mk Allow "a:1" none, task.mk Deny "c:3" none].length ∧
    [task.mk Deny "b:2" none, task.mk Allow "a:1" none, task.mk Deny "c:3" none].length =
      ["a:1"].length + ["c:3", "b:2"].length ∧
    ∃ (m : ResultMap) (e : Option error),
      Run ["a:1"] ["c:3", "b:2"]
        ([task.mk Deny "b:2" none, task.mk Allow "a:1" none, task.mk Deny "c:3" none].map
          Event.result ++ []) = some (some m, e) ∧
      (∀ k : Bucket, m.lookup k.key =
        some ([task.mk Deny "b:2" none, task.mk Allow "a:1" none,
          task.mk Deny "c:3" none].filterMap (contribution k))) ∧
      (∀ (b : Buckets) (t : task) (k : Bucket),
        (classify b t).get k = b.get k ++ (contribution k t).toList) ∧
      (∀ (k : Bucket) (pre mid post : List task) (t1 t2 : task) (m1 m2 : String),
        [task.mk Deny "b:2" none, task.mk Allow "a:1" none, task.mk Deny "c:3" none] =
          pre ++ t1 :: (mid ++ t2 :: post) →
        contribution k t1 = some m1 → contribution k t2 = some m2 →
        m.lookup k.key = some (pre.filterMap (contribution k) ++
          m1 :: (mid.filterMap (contribution k) ++ m2 :: post.filterMap (contribution k)))) ∧
      (∀ allow2 deny2 : List String, allow2.Perm ["a:1"] → deny2.Perm ["c:3", "b:2"] →
        Run allow2 deny2
          ([task.mk Deny "b:2" none, task.mk Allow "a:1" none, task.mk Deny "c:3" none].map
            Event.result ++ []) = some (some m, e)) :=
  ⟨by decide, by decide,
    Run_buckets_arrival_order ["a:1"] ["c:3", "b:2"]
      [task.mk Deny "b:2" none, task.mk Allow "a:1" none, task.mk Deny "c:3" none] []
      (by decide) (by decide)⟩

/-- C10: for two arrival orders of the same results, one a permutation of the
other, on which `Run` completes normally, the two returned errors are equal
(nil in both or non-nil in both) and the slice under each key in one run is a
permutation of the slice under that key in the other. -/
theorem Run_verdict_order_independent (allow deny : List String) (r1 r2 : List task)
    (rest1 rest2 : List Event) (hperm : r1.Perm r2) (hpos : 0 < r1.length)
    (hlen : r1.length = allow.length + deny.length) :
    ∃ (m1 m2 : ResultMap) (e1 e2 : Option error),
      Run allow deny (r1.map Event.result ++ rest1) = some (some m1, e1) ∧
      Run allow deny (r2.map Event.result ++ rest2) = some (some m2, e2) ∧
      (e1 = none ↔ e2 = none) ∧ e1 = e2 ∧
      ∀ k : Bucket, ∃ l1 l2 : List String,
        m1.lookup k.key = some l1 ∧ m2.lookup k.key = some l2 ∧ l1.Perm l2 := by
  have hget : ∀ k : Bucket, ((collect r1).get k).Perm ((collect r2).get k) := by
    intro k
    rw [collect_get, collect_get]
    exact hperm.filterMap _
  have hv : verdict (collect r1) = verdict (collect r2) :=
    verdict_congr _ _ (hget .allowFailed) (hget .denyFailed)
  refine ⟨resultMap (collect r1), resultMap (collect r2), verdict (collect r1),
    verdict (collect r2), Run_normal_eq allow deny r1 rest1 hpos hlen,
    Run_normal_eq allow deny r2 rest2 (hperm.length_eq ▸ hpos) (hperm.length_eq ▸ hlen),
    by rw [hv], hv, fun k => ⟨_, _, resultMap_lookup _ k, resultMap_lookup _ k, hget k⟩⟩

theorem Run_verdict_order_independent_witness :
    [task.mk Allow "a:1" (some "connection refused"), task.mk Deny "b:2" none].Perm
      [task.mk Deny "b:2" none, task.mk Allow "a:1" (some "connection refused")] ∧
    0 < [task.mk Allow "a:1" (some "connection refused"), task.mk Deny "b:2" none].length ∧
    [task.mk Allow "a:1" (some "connection refused"), task.mk Deny "b:2" none].length =
      ["a:1"].length + ["b:2"].length ∧
    ∃ (m1 m2 : ResultMap) (e1 e2 : Option error),
      Run ["a:1"] ["b:2"]
        ([task.mk Allow "a:1" (some "connection refused"), task.mk Deny "b:2" none].map
          Event.result ++ []) = some (some m1, e1) ∧
      Run ["a:1"] ["b:2"]
        ([task.mk Deny "b:2" none, task.mk Allow "a:1" (some "connection refused")].map
          Event.result ++ []) = some (some m2, e2) ∧
      (e1 = none ↔ e2 = none) ∧ e1 = e2 ∧
      ∀ k : Bucket, ∃ l1 l2 : List String,
        m1.lookup k.key = some l1 ∧ m2.lookup k.key = some l2 ∧ l1.Perm l2 :=
  ⟨by decide, by decide, by decide,
    Run_verdict_order_independent ["a:1"] ["b:2"]
      [task.mk Allow "a:1" (some "connection refused"), task.mk Deny "b:2" none]
      [task.mk Deny "b:2" none, task.mk Allow "a:1" (some "connection refused")] [] []
      (by decide) (by decide) (by decide)⟩

end Nettest
